import Mathlib

/-!
A verification development for the seeding lifecycle manager of the `akira`
torrent-management service (Go sources under `internal/core/seeding_service.go`,
`internal/config/config.go`, `internal/qbittorrent/types.go`).

Modelling conventions, used consistently below:

* `time.Time` values are modelled as `Int` nanoseconds since the epoch, with
  `0` playing the role of Go's zero `time.Time` (`IsZero` becomes `= 0`).
* `time.Duration` values are `Int` nanoseconds.
* Go's `float64` configuration multiplier is modelled by its exact rational
  value (`Rat`); the `float64` conversion and multiplication in
  `CheckSeedingLimits` are modelled as exact rational arithmetic (faithful
  whenever the operands and product are exactly representable in binary64,
  which holds at every concrete input evaluated in this file), while Go's
  `time.Duration(...)` conversion of the float product truncates toward zero
  and is modelled by `truncTowardZero`.
* A Go `map[string]V` is modelled as an association list `List (String × V)`
  with unique keys maintained by `assocInsert`/key-filtering erase; map
  iteration is list-order iteration (every per-record computation below is
  independent of the iteration order).
* Network and file effects are modelled by passing outcomes explicitly: the
  result of `TorrentService.GetTorrents` is an `Except String (List Torrent)`
  argument, the outcome of a `Client.PauseTorrents` call on a single hash is
  given by a `String → Bool` oracle (`true` = the call errors), and the
  persistence backend is a `StoreRead` value.
-/

namespace Akira

/-- `qbittorrent.TorrentState` (types.go): the possible torrent states. -/
inductive TorrentState where
  | error
  | missingFiles
  | uploading
  | pausedUP
  | queuedUP
  | stalledUP
  | checkingUP
  | forcedUP
  | allocating
  | downloading
  | metaDL
  | pausedDL
  | queuedDL
  | stalledDL
  | checkingDL
  | forcedDL
  | checkingResumeData
  | moving
  | unknown
deriving Repr, DecidableEq

/-- The fields of `qbittorrent.Torrent` (types.go) that the seeding lifecycle
manager reads: `Hash`, `Name`, `Progress` (a `float64`, modelled as its exact
rational value) and `State`. -/
structure Torrent where
  hash : String
  name : String
  progress : Rat
  state : TorrentState
deriving Repr, DecidableEq

/-- `Torrent.IsSeeding` (types.go): uploading, stalledUP, checkingUP,
forcedUP or queuedUP. -/
def Torrent.isSeeding (t : Torrent) : Bool :=
  t.state = TorrentState.uploading || t.state = TorrentState.stalledUP ||
  t.state = TorrentState.checkingUP || t.state = TorrentState.forcedUP ||
  t.state = TorrentState.queuedUP

/-- `Torrent.IsCompleted` (types.go): `Progress >= 1.0`. -/
def Torrent.isCompleted (t : Torrent) : Bool :=
  (1 : Rat) ≤ t.progress

/-- `qbittorrent.SeedingTrackingData` (types.go): the per-torrent lifecycle
record.  Timestamps are `Int` nanoseconds, `0` = Go's zero `time.Time`. -/
structure SeedingTrackingData where
  hash : String
  name : String
  downloadStartTime : Int
  downloadCompleteTime : Int
  downloadDuration : Int
  seedingStopTime : Int
  autoStopped : Bool
  createdAt : Int
  updatedAt : Int
deriving Repr, DecidableEq

/-- The in-memory record table `SeedingService.trackingData`
(`map[string]*SeedingTrackingData`), as an association list. -/
abbrev TrackingTable := List (String × SeedingTrackingData)

/-- Go map read `m[k]`: the first binding of `k` (bindings are unique). -/
def assocLookup {α : Type} : List (String × α) → String → Option α
  | [], _ => none
  | p :: rest, k => if p.1 = k then some p.2 else assocLookup rest k

/-- Go map write `m[k] = v`: overwrite the binding of `k` if present,
otherwise append a new binding. -/
def assocInsert {α : Type} (l : List (String × α)) (k : String) (v : α) :
    List (String × α) :=
  if l.any (fun p => p.1 = k) then
    l.map (fun p => if p.1 = k then (p.1, v) else p)
  else
    l ++ [(k, v)]

/-- Go map iteration `for _, t := range torrents { m[t.Hash] = t }` followed by
a read: the last torrent in the fetched list with the given hash wins. -/
def torrentLookup (ts : List Torrent) (k : String) : Option Torrent :=
  ts.foldl (fun acc t => if t.hash = k then some t else acc) none

/-- Go conversion of a `float64` to an integer type (`time.Duration(x)`):
the fractional part is discarded, truncating toward zero. -/
def truncTowardZero (q : Rat) : Int :=
  if 0 ≤ q then ⌊q⌋ else ⌈q⌉

/-- `SeedingService.StartTracking` (seeding_service.go:134), effect on the
record table: a no-op if the hash is already tracked, otherwise a fresh record
with `DownloadStartTime = CreatedAt = UpdatedAt = now` and zero-valued
completion fields is inserted. -/
def startTracking (now : Int) (hash name : String) (table : TrackingTable) :
    TrackingTable :=
  match assocLookup table hash with
  | some _ => table
  | none =>
      table ++ [(hash,
        { hash := hash, name := name, downloadStartTime := now,
          downloadCompleteTime := 0, downloadDuration := 0,
          seedingStopTime := 0, autoStopped := false,
          createdAt := now, updatedAt := now })]

/-- `SeedingService.StopTracking` (seeding_service.go:171): removing an
untracked hash is an error that leaves the table unchanged; otherwise the
record is deleted. -/
def stopTracking (hash : String) (table : TrackingTable) :
    Option String × TrackingTable :=
  match assocLookup table hash with
  | none => (some ("torrent " ++ hash ++ " is not being tracked"), table)
  | some _ => (none, table.filter (fun p => p.1 != hash))

/-- The per-tick environment of `CheckSeedingLimits`: the fetched torrent
list, the tick's `time.Now()`, the configured `Seeding.TimeMultiplier` and the
outcome oracle for `client.PauseTorrents(ctx, [hash])` (`true` = the pause
call returns an error). -/
structure TickEnv where
  torrents : List Torrent
  now : Int
  timeMultiplier : Rat
  pauseErr : String → Bool

/-- The body of the `for hash, trackingData := range ss.trackingData` loop of
`CheckSeedingLimits` (seeding_service.go:221-284) for one record.  Returns the
updated record, whether the record was auto-stopped this tick (the
`stoppedCount++` event), and the list of hashes for which `PauseTorrents` was
called (also on a failed call, which `continue`s without marking). -/
def processRecord (env : TickEnv) (hash : String) (d : SeedingTrackingData) :
    SeedingTrackingData × Bool × List String :=
  if d.autoStopped then (d, false, [])
  else
    match torrentLookup env.torrents hash with
    | none => (d, false, [])
    | some torrent =>
      let d1 :=
        if d.downloadCompleteTime = 0 ∧ torrent.isCompleted = true then
          let dur := env.now - d.downloadStartTime
          let seedingDuration :=
            truncTowardZero (env.timeMultiplier * (dur : Rat))
          { d with downloadCompleteTime := env.now, downloadDuration := dur,
                   seedingStopTime := env.now + seedingDuration,
                   updatedAt := env.now }
        else d
      if d1.downloadCompleteTime ≠ 0 ∧ env.now > d1.seedingStopTime then
        if torrent.isSeeding = true then
          if env.pauseErr hash then (d1, false, [hash])
          else ({ d1 with autoStopped := true, updatedAt := env.now },
                true, [hash])
        else (d1, false, [])
      else (d1, false, [])

/-- The outcome of one `CheckSeedingLimits` tick: the new record table, the
`checkedCount`/`stoppedCount` counters, the hashes passed to `PauseTorrents`
(in iteration order), and whether the end-of-tick `SaveTrackingData` call was
made (`stoppedCount > 0`, seeding_service.go:292). -/
structure CheckResult where
  table : TrackingTable
  checkedCount : Nat
  stoppedCount : Nat
  pauseCalls : List String
  saveRequested : Bool
deriving Repr, DecidableEq

/-- `SeedingService.CheckSeedingLimits` (seeding_service.go:198): a failed
torrent fetch aborts the tick with an error and no table change; otherwise
every record is processed by `processRecord` and the table is saved at the end
of the tick only when `stoppedCount > 0`. -/
def checkSeedingLimits (mult : Rat) (pauseErr : String → Bool) (now : Int)
    (fetch : Except String (List Torrent)) (table : TrackingTable) :
    Except String CheckResult :=
  match fetch with
  | Except.error e => Except.error ("failed to get torrents: " ++ e)
  | Except.ok ts =>
      let env : TickEnv := ⟨ts, now, mult, pauseErr⟩
      let results := table.map (fun p => (p.1, processRecord env p.1 p.2))
      let stopped := results.countP (fun p => p.2.2.1)
      Except.ok
        { table := results.map (fun p => (p.1, p.2.1)),
          checkedCount := table.length,
          stoppedCount := stopped,
          pauseCalls := (results.map (fun p => p.2.2.2)).flatten,
          saveRequested := stopped != 0 }

/-- The observable events of one `CheckSeedingLimits` tick, in program order:
the provider fetch, acquisition and release of the exclusive `dataMutex`
(release is deferred, so it is the last event), the `PauseTorrents` network
calls, and the end-of-tick save. -/
inductive TickEvent where
  | fetchTorrents
  | lockAcquire
  | lockRelease
  | saveCall
  | pauseCall (hash : String)
deriving Repr, DecidableEq

/-- The event trace of one `CheckSeedingLimits` tick, following the statement
order of seeding_service.go: `GetTorrents` at line 202 (before the lock), a
failed fetch returns immediately; `dataMutex.Lock()` at line 214 with a
deferred unlock; the `PauseTorrents` calls at line 263 inside the loop; the
conditional save at line 293; the deferred unlock on return. -/
def checkSeedingLimitsTrace (mult : Rat) (pauseErr : String → Bool) (now : Int)
    (fetch : Except String (List Torrent)) (table : TrackingTable) :
    List TickEvent :=
  match checkSeedingLimits mult pauseErr now fetch table with
  | Except.error _ => [TickEvent.fetchTorrents]
  | Except.ok r =>
      [TickEvent.fetchTorrents, TickEvent.lockAcquire] ++
      r.pauseCalls.map TickEvent.pauseCall ++
      (if r.saveRequested then [TickEvent.saveCall] else []) ++
      [TickEvent.lockRelease]

/-- Scans a trace and checks that every `pauseCall` happens while the
exclusive lock is NOT held (first argument: lock held at the start). -/
def pausesOutsideLock : Bool → List TickEvent → Bool
  | _, [] => true
  | _, TickEvent.lockAcquire :: rest => pausesOutsideLock true rest
  | _, TickEvent.lockRelease :: rest => pausesOutsideLock false rest
  | held, TickEvent.pauseCall _ :: rest => !held && pausesOutsideLock held rest
  | held, _ :: rest => pausesOutsideLock held rest

/-- Scans a trace and checks that every `pauseCall` happens while the
exclusive lock IS held. -/
def pausesInsideLock : Bool → List TickEvent → Bool
  | _, [] => true
  | _, TickEvent.lockAcquire :: rest => pausesInsideLock true rest
  | _, TickEvent.lockRelease :: rest => pausesInsideLock false rest
  | held, TickEvent.pauseCall _ :: rest => held && pausesInsideLock held rest
  | held, _ :: rest => pausesInsideLock held rest

/-- Scans a trace and checks that every `fetchTorrents` happens while the
exclusive lock is not held. -/
def fetchOutsideLock : Bool → List TickEvent → Bool
  | _, [] => true
  | _, TickEvent.lockAcquire :: rest => fetchOutsideLock true rest
  | _, TickEvent.lockRelease :: rest => fetchOutsideLock false rest
  | held, TickEvent.fetchTorrents :: rest => !held && fetchOutsideLock held rest
  | held, _ :: rest => fetchOutsideLock held rest

/-- The per-hash marking loop of `ForceStopSeeding` (seeding_service.go:511):
a tracked record with the given hash gets `AutoStopped = true` and
`UpdatedAt = now`; an untracked hash is skipped. -/
def markStopped (now : Int) (table : TrackingTable) (hash : String) :
    TrackingTable :=
  table.map (fun p =>
    (p.1, if p.1 = hash then
            { p.2 with autoStopped := true, updatedAt := now }
          else p.2))

/-- `SeedingService.ForceStopSeeding` (seeding_service.go:492).  `pauseResult`
is the outcome of the single batched `client.PauseTorrents(ctx, hashes)` call
(`some e` = the call failed with error `e`).  An empty batch errors before the
pause call; a failed pause call errors with the table untouched; a successful
pause call marks every tracked hash of the batch. -/
def forceStopSeeding (pauseResult : Option String) (now : Int)
    (table : TrackingTable) (hashes : List String) :
    Option String × TrackingTable :=
  if hashes = [] then (some "no torrent hashes provided", table)
  else
    match pauseResult with
    | some e => (some ("failed to pause torrents: " ++ e), table)
    | none => (none, hashes.foldl (markStopped now) table)

/-- `core.SeedingTorrentStatus` (seeding_service.go:47): the per-torrent line
of the status report.  `currentState` holds `GetStateDisplayName`'s result;
its exact string does not matter for any claim, so the state itself is kept. -/
structure SeedingTorrentStatus where
  hash : String
  name : String
  downloadDuration : Int
  seedingDuration : Int
  seedingLimit : Int
  timeRemaining : Int
  isOverdue : Bool
  autoStopped : Bool
  currentState : TorrentState
  seedingStopTime : Int
deriving Repr, DecidableEq

/-- `core.SeedingStatus` (seeding_service.go:35): the aggregate report. -/
structure SeedingStatus where
  trackedTorrents : Nat
  activeSeeding : Nat
  completedSeeding : Nat
  overdueSeeding : Nat
  totalDownloadTime : Int
  totalSeedingTime : Int
  details : List (String × SeedingTorrentStatus)
  lastChecked : Int
deriving Repr, DecidableEq

/-- The per-torrent detail built inside the `GetSeedingStatus` loop
(seeding_service.go:333-360) for a record whose torrent was found in the live
snapshot. -/
def torrentStatusOf (mult : Rat) (now : Int) (hash : String) (t : Torrent)
    (d : SeedingTrackingData) : SeedingTorrentStatus :=
  let base : SeedingTorrentStatus :=
    { hash := hash, name := d.name, downloadDuration := d.downloadDuration,
      seedingDuration := 0, seedingLimit := 0, timeRemaining := 0,
      isOverdue := false, autoStopped := d.autoStopped,
      currentState := t.state, seedingStopTime := d.seedingStopTime }
  if d.downloadCompleteTime = 0 then base
  else
    let sdur :=
      if d.autoStopped then d.seedingStopTime - d.downloadCompleteTime
      else now - d.downloadCompleteTime
    let slimit := truncTowardZero (mult * (d.downloadDuration : Rat))
    let tr := d.seedingStopTime - now
    if tr < 0 then
      { base with seedingDuration := sdur, seedingLimit := slimit,
                  timeRemaining := 0, isOverdue := true }
    else
      { base with seedingDuration := sdur, seedingLimit := slimit,
                  timeRemaining := tr }

/-- One iteration of the `GetSeedingStatus` loop (seeding_service.go:327-377):
a record whose torrent is missing from the live snapshot is skipped entirely
(`continue` at line 330); otherwise its detail is added and the counters are
advanced. -/
def statusStep (mult : Rat) (now : Int) (ts : List Torrent)
    (acc : SeedingStatus) (p : String × SeedingTrackingData) : SeedingStatus :=
  match torrentLookup ts p.1 with
  | none => acc
  | some t =>
      let st := torrentStatusOf mult now p.1 t p.2
      { acc with
        details := assocInsert acc.details p.1 st,
        trackedTorrents := acc.trackedTorrents + 1,
        totalDownloadTime := acc.totalDownloadTime + st.downloadDuration,
        totalSeedingTime := acc.totalSeedingTime + st.seedingDuration,
        activeSeeding :=
          if t.isSeeding = true ∧ p.2.autoStopped = false then
            acc.activeSeeding + 1
          else acc.activeSeeding,
        completedSeeding :=
          if ¬(t.isSeeding = true ∧ p.2.autoStopped = false) ∧
              p.2.autoStopped = true then
            acc.completedSeeding + 1
          else acc.completedSeeding,
        overdueSeeding :=
          if st.isOverdue = true ∧ p.2.autoStopped = false then
            acc.overdueSeeding + 1
          else acc.overdueSeeding }

/-- `SeedingService.GetSeedingStatus` (seeding_service.go:302): a failed
torrent fetch returns an error (line 309); otherwise the report is the fold of
`statusStep` over the record table, starting from the empty report. -/
def getSeedingStatus (mult : Rat) (now : Int)
    (fetch : Except String (List Torrent)) (table : TrackingTable) :
    Except String SeedingStatus :=
  match fetch with
  | Except.error e => Except.error ("failed to get torrents: " ++ e)
  | Except.ok ts =>
      Except.ok (table.foldl (statusStep mult now ts)
        { trackedTorrents := 0, activeSeeding := 0, completedSeeding := 0,
          overdueSeeding := 0, totalDownloadTime := 0, totalSeedingTime := 0,
          details := [], lastChecked := now })

/-- Whether an `Except` result is a success. -/
def isOkResult {α : Type} : Except String α → Bool
  | Except.ok _ => true
  | Except.error _ => false

/-- What reading the persistence backend can yield in `LoadTrackingData`
(seeding_service.go:417): the backing file may be absent (`os.IsNotExist`),
unreadable, or present with a decoded record set. -/
inductive StoreRead where
  | missing
  | readError (e : String)
  | found (recs : TrackingTable)

/-- `SeedingService.LoadTrackingData` (seeding_service.go:413).  A missing
file is not an error and leaves the table unchanged; a read error is returned
with the table unchanged; otherwise `json.Unmarshal(data, &ss.trackingData)`
decodes INTO the existing non-nil map, which keeps existing entries and
overwrites only the keys present in the stored document. -/
def loadTrackingData (store : StoreRead) (table : TrackingTable) :
    Option String × TrackingTable :=
  match store with
  | StoreRead.missing => (none, table)
  | StoreRead.readError e =>
      (some ("failed to read tracking data file: " ++ e), table)
  | StoreRead.found recs =>
      (none, recs.foldl (fun t p => assocInsert t p.1 p.2) table)

/-- Last-wins lookup over a stored record list, matching the overwrite
behaviour of decoding a JSON object into a map key by key. -/
def assocLookupLast {α : Type} : List (String × α) → String → Option α
  | [], _ => none
  | p :: rest, k =>
      match assocLookupLast rest k with
      | some v => some v
      | none => if p.1 = k then some p.2 else none

/-- `config.DiscordConfig` (config.go:24). -/
structure DiscordConfig where
  botToken : String
  guildIDs : List String
deriving Repr, DecidableEq

/-- `config.SavePathsConfig` (config.go:40). -/
structure SavePathsConfig where
  defaultPath : String
  series : String
  movies : String
  anime : String
deriving Repr, DecidableEq

/-- `config.QBittorrentConfig` (config.go:30); `RequestTimeout` in ns. -/
structure QBittorrentConfig where
  url : String
  username : String
  password : String
  savePaths : SavePathsConfig
  diskSpaceCheckPath : String
  requestTimeout : Int
deriving Repr, DecidableEq

/-- `config.LoggingConfig` (config.go:58). -/
structure LoggingConfig where
  level : String
  file : String
  maxSize : Int
  maxBackups : Int
  maxAge : Int
  compress : Bool
  toStdout : Bool
deriving Repr, DecidableEq

/-- `config.SeedingConfig` (config.go:69): the `float64` multiplier is
modelled by its exact rational value, `CheckInterval` in ns. -/
structure SeedingConfig where
  timeMultiplier : Rat
  checkInterval : Int
  trackingDataFile : String
deriving Repr, DecidableEq

/-- `config.Config` (config.go:14).  The `Cache` and `Proxy` field groups are
omitted: `Validate` never reads them and no claim mentions them. -/
structure Config where
  discord : DiscordConfig
  qbittorrent : QBittorrentConfig
  logging : LoggingConfig
  seeding : SeedingConfig
deriving Repr, DecidableEq

/-- The `validLogLevels` membership test of `Config.Validate`
(config.go:186). -/
def validLogLevel (s : String) : Bool :=
  s = "trace" || s = "debug" || s = "info" || s = "warn" ||
  s = "error" || s = "fatal" || s = "panic"

/-- `Config.Validate` (config.go:164): the checks in source order; `none`
means validation passed.  Note the source validates `Seeding.TimeMultiplier`
but contains no check of `Seeding.CheckInterval`. -/
def configValidate (c : Config) : Option String :=
  if c.discord.botToken = "" then some "DISCORD_BOT_TOKEN is required"
  else if c.qbittorrent.url = "" then some "QBITTORRENT_URL is required"
  else if c.qbittorrent.username = "" then
    some "QBITTORRENT_USERNAME is required"
  else if c.qbittorrent.password = "" then
    some "QBITTORRENT_PASSWORD is required"
  else if c.qbittorrent.savePaths.defaultPath = "" then
    some "QBITTORRENT_DEFAULT_SAVE_PATH is required"
  else if ¬(validLogLevel c.logging.level = true) then
    some ("invalid log level: " ++ c.logging.level)
  else if c.seeding.timeMultiplier ≤ 0 then
    some "seeding time multiplier must be greater than 0"
  else none

/-- The operations of the seeding lifecycle API, each carrying the external
outcomes it depends on (fetched torrents, pause-call outcomes, store reads),
so that an operation is a pure function on the record table. -/
inductive LifecycleOp where
  | opStartTracking (now : Int) (hash name : String)
  | opStopTracking (hash : String)
  | opForceStopSeeding (pauseResult : Option String) (now : Int)
      (hashes : List String)
  | opCheckSeedingLimits (mult : Rat) (pauseErr : String → Bool) (now : Int)
      (fetch : Except String (List Torrent))
  | opGetSeedingStatus (mult : Rat) (now : Int)
      (fetch : Except String (List Torrent))
  | opSaveTrackingData
  | opLoadTrackingData (store : StoreRead)

/-- Whether an operation is `LoadTrackingData`. -/
def LifecycleOp.isLoad : LifecycleOp → Bool
  | LifecycleOp.opLoadTrackingData _ => true
  | _ => false

/-- The effect of each lifecycle operation on the in-memory record table.
`GetSeedingStatus` and `SaveTrackingData` never mutate it; a
`CheckSeedingLimits` tick whose fetch failed leaves it unchanged. -/
def applyOp (op : LifecycleOp) (table : TrackingTable) : TrackingTable :=
  match op with
  | LifecycleOp.opStartTracking now h n => startTracking now h n table
  | LifecycleOp.opStopTracking h => (stopTracking h table).2
  | LifecycleOp.opForceStopSeeding pr now hs =>
      (forceStopSeeding pr now table hs).2
  | LifecycleOp.opCheckSeedingLimits m pe now fetch =>
      match checkSeedingLimits m pe now fetch table with
      | Except.error _ => table
      | Except.ok r => r.table
  | LifecycleOp.opGetSeedingStatus _ _ _ => table
  | LifecycleOp.opSaveTrackingData => table
  | LifecycleOp.opLoadTrackingData store => (loadTrackingData store table).2

/-! Section: Concrete inputs used to evaluate the definitions -/

/-- A record still downloading: tracked at t=100ns, completion not yet
detected. -/
def recDownloading : SeedingTrackingData :=
  { hash := "a", name := "A", downloadStartTime := 100,
    downloadCompleteTime := 0, downloadDuration := 0, seedingStopTime := 0,
    autoStopped := false, createdAt := 100, updatedAt := 100 }

/-- A live torrent for hash `"a"` that has finished downloading and is
seeding (stalled). -/
def torCompletedA : Torrent :=
  { hash := "a", name := "A", progress := 1, state := TorrentState.stalledUP }

/-- A completed record for hash `"b"` whose seeding budget (stop time 20ns)
has already elapsed. -/
def recOverdue : SeedingTrackingData :=
  { hash := "b", name := "B", downloadStartTime := 0,
    downloadCompleteTime := 10, downloadDuration := 10, seedingStopTime := 20,
    autoStopped := false, createdAt := 0, updatedAt := 10 }

/-- A live torrent for hash `"b"` that is actively seeding. -/
def torSeedingB : Torrent :=
  { hash := "b", name := "B", progress := 1, state := TorrentState.uploading }

/-- A record for hash `"c"` that has already been auto-stopped. -/
def recStopped : SeedingTrackingData :=
  { hash := "c", name := "C", downloadStartTime := 0,
    downloadCompleteTime := 10, downloadDuration := 10, seedingStopTime := 20,
    autoStopped := true, createdAt := 0, updatedAt := 25 }

/-- A configuration whose fields all pass `Config.Validate` except that the
reconciliation check interval is zero (non-positive). -/
def cfgZeroInterval : Config :=
  { discord := { botToken := "tok", guildIDs := [] },
    qbittorrent :=
      { url := "http://localhost:8080", username := "admin",
        password := "pw",
        savePaths :=
          { defaultPath := "/downloads/default", series := "/downloads/default",
            movies := "/downloads/default", anime := "/downloads/default" },
        diskSpaceCheckPath := "/", requestTimeout := 30000000000 },
    logging :=
      { level := "info", file := "bot_activity.log", maxSize := 100,
        maxBackups := 5, maxAge := 30, compress := true, toStdout := true },
    seeding :=
      { timeMultiplier := 10, checkInterval := 0,
        trackingDataFile := "seeding_tracking.json" } }

/-! Section: Association-list lemmas -/

theorem assocLookup_append {α : Type} (l l2 : List (String × α)) (k : String) :
    assocLookup (l ++ l2) k =
      match assocLookup l k with
      | some v => some v
      | none => assocLookup l2 k := by
  induction l with
  | nil => simp [assocLookup]
  | cons p rest ih =>
      by_cases h : p.1 = k <;> simp [assocLookup, h, ih]

theorem assocLookup_map {α β : Type} (f : String → α → β)
    (l : List (String × α)) (k : String) :
    assocLookup (l.map (fun p => (p.1, f p.1 p.2))) k =
      (assocLookup l k).map (f k) := by
  induction l with
  | nil => simp [assocLookup]
  | cons p rest ih =>
      by_cases h : p.1 = k
      · subst h; simp [assocLookup, ih]
      · simp [assocLookup, h, ih]

theorem assocLookup_any {α : Type} (l : List (String × α)) (k : String) :
    l.any (fun p => p.1 = k) = (assocLookup l k).isSome := by
  induction l with
  | nil => simp [assocLookup]
  | cons p rest ih =>
      by_cases h : p.1 = k <;> simp [assocLookup, h, ih]

theorem assocLookup_assocInsert {α : Type} (l : List (String × α))
    (k k2 : String) (v : α) :
    assocLookup (assocInsert l k v) k2 =
      if k2 = k then some v else assocLookup l k2 := by
  unfold assocInsert
  by_cases hmem : l.any (fun p => p.1 = k)
  · rw [if_pos hmem]
    have hmap :
        (l.map (fun p => if p.1 = k then (p.1, v) else p)) =
          l.map (fun p => (p.1, if p.1 = k then v else p.2)) := by
      apply List.map_congr_left
      intro p _
      by_cases h : p.1 = k <;> simp [h]
    rw [hmap, assocLookup_map (fun key x => if key = k then v else x)]
    rw [assocLookup_any] at hmem
    by_cases h2 : k2 = k
    · subst h2
      cases hs : assocLookup l k2 with
      | none => rw [hs] at hmem; simp at hmem
      | some w => simp
    · cases hs : assocLookup l k2 <;> simp [h2]
  · rw [if_neg hmem, assocLookup_append]
    rw [assocLookup_any] at hmem
    by_cases h2 : k2 = k
    · subst h2
      cases hs : assocLookup l k2 with
      | none => simp [assocLookup]
      | some w => rw [hs] at hmem; simp at hmem
    · cases hs : assocLookup l k2 <;> simp [assocLookup, h2, Ne.symm h2]

theorem assocLookup_filter_ne (l : TrackingTable) (hash k : String) :
    assocLookup (l.filter (fun p => p.1 != hash)) k =
      if k = hash then none else assocLookup l k := by
  induction l with
  | nil => simp [assocLookup]
  | cons p rest ih =>
      rw [List.filter_cons]
      by_cases hp : p.1 = hash
      · simp only [hp, bne_self_eq_false, Bool.false_eq_true, if_false, ih]
        by_cases h2 : k = hash
        · simp [h2]
        · have hpk : ¬p.1 = k := by
            rw [hp]; exact fun h => h2 h.symm
          simp [assocLookup, h2, hpk]
      · have hb : (p.1 != hash) = true := by simp [hp]
        simp only [hb, if_true]
        by_cases hpk : p.1 = k
        · have h2 : ¬k = hash := by
            rw [← hpk]; exact fun h => hp h
          simp [assocLookup, hpk, h2]
        · simp [assocLookup, hpk, ih]

theorem assocLookup_foldl_assocInsert {α : Type} (recs : List (String × α))
    (table : List (String × α)) (k : String) :
    assocLookup (recs.foldl (fun t p => assocInsert t p.1 p.2) table) k =
      (assocLookupLast recs k).or (assocLookup table k) := by
  induction recs generalizing table with
  | nil => simp [assocLookupLast]
  | cons p rest ih =>
      rw [List.foldl_cons, ih, assocLookup_assocInsert]
      cases hlast : assocLookupLast rest k with
      | some v => simp [assocLookupLast, hlast]
      | none =>
          by_cases h2 : k = p.1
          · subst h2; simp [assocLookupLast, hlast]
          · simp [assocLookupLast, hlast, h2, Ne.symm h2]

theorem assocLookup_append_some {α : Type} (l l2 : List (String × α))
    (k : String) (v : α) (h : assocLookup l k = some v) :
    assocLookup (l ++ l2) k = some v := by
  rw [assocLookup_append, h]

/-! Section: CheckSeedingLimits lemmas -/

theorem processRecord_of_autoStopped (env : TickEnv) (hash : String)
    (d : SeedingTrackingData) (h : d.autoStopped = true) :
    processRecord env hash d = (d, false, []) := by
  simp [processRecord, h]

theorem processRecord_stopped_iff (env : TickEnv) (hash : String)
    (d : SeedingTrackingData) :
    (processRecord env hash d).2.1 = true ↔
      d.autoStopped = false ∧ (processRecord env hash d).1.autoStopped = true := by
  simp only [processRecord]
  split
  · next h => simp [h]
  · next h =>
      have hA : d.autoStopped = false := by
        revert h; cases d.autoStopped <;> simp
      cases hl : torrentLookup env.torrents hash with
      | none => simp [hA]
      | some t =>
          simp only []
          split
          · next hcomp =>
              split
              · split
                · split <;> simp [hA]
                · simp [hA]
              · simp [hA]
          · next hcomp =>
              split
              · split
                · split <;> simp [hA]
                · simp [hA]
              · simp [hA]

theorem processRecord_completion (env : TickEnv) (hash : String)
    (d : SeedingTrackingData) (hA : d.autoStopped = false)
    (t : Torrent) (hl : torrentLookup env.torrents hash = some t)
    (hz : d.downloadCompleteTime = 0) (hc : t.isCompleted = true) :
    ((processRecord env hash d).1.downloadCompleteTime = env.now ∧
     (processRecord env hash d).1.downloadDuration =
       env.now - d.downloadStartTime ∧
     (processRecord env hash d).1.seedingStopTime =
       env.now + truncTowardZero
         (env.timeMultiplier * ((env.now - d.downloadStartTime : Int) : Rat))) := by
  simp only [processRecord, hA, Bool.false_eq_true, if_false, hl, hz, hc,
    eq_self_iff_true, and_self, if_true]
  split
  · split
    · split <;> simp
    · simp
  · simp

theorem truncTowardZero_intCast (m : Int) :
    truncTowardZero ((m : Int) : Rat) = m := by
  unfold truncTowardZero
  split <;> simp

theorem checkSeedingLimits_ok (mult : Rat) (pauseErr : String → Bool)
    (now : Int) (ts : List Torrent) (table : TrackingTable) :
    checkSeedingLimits mult pauseErr now (Except.ok ts) table =
      Except.ok
        { table := table.map (fun p =>
            (p.1, (processRecord ⟨ts, now, mult, pauseErr⟩ p.1 p.2).1)),
          checkedCount := table.length,
          stoppedCount := table.countP (fun p =>
            (processRecord ⟨ts, now, mult, pauseErr⟩ p.1 p.2).2.1),
          pauseCalls := (table.map (fun p =>
            (processRecord ⟨ts, now, mult, pauseErr⟩ p.1 p.2).2.2)).flatten,
          saveRequested := table.countP (fun p =>
            (processRecord ⟨ts, now, mult, pauseErr⟩ p.1 p.2).2.1) != 0 } := by
  simp only [checkSeedingLimits, List.map_map, List.countP_map]
  exact congrArg Except.ok rfl

/-! Section: ForceStopSeeding lemmas -/

theorem assocLookup_markStopped (now : Int) (table : TrackingTable)
    (hash k : String) :
    assocLookup (markStopped now table hash) k =
      (assocLookup table k).map
        (fun d =>
          if k = hash then { d with autoStopped := true, updatedAt := now }
          else d) := by
  unfold markStopped
  exact assocLookup_map
    (fun key d =>
      if key = hash then { d with autoStopped := true, updatedAt := now }
      else d) table k

theorem assocLookup_foldl_markStopped (now : Int) (hashes : List String)
    (table : TrackingTable) (k : String) :
    assocLookup (hashes.foldl (markStopped now) table) k =
      (assocLookup table k).map
        (fun d =>
          if k ∈ hashes then { d with autoStopped := true, updatedAt := now }
          else d) := by
  induction hashes generalizing table with
  | nil => cases hd : assocLookup table k <;> simp [hd]
  | cons h rest ih =>
      rw [List.foldl_cons, ih, assocLookup_markStopped]
      cases hd : assocLookup table k with
      | none => simp
      | some d =>
          by_cases hh : k = h <;> by_cases hk : k ∈ rest <;>
            simp [hh, hk, List.mem_cons]

/-! Section: Trace-scanner lemmas -/

theorem fetchOutsideLock_append_pauses (hs : List String) (held : Bool)
    (rest : List TickEvent) :
    fetchOutsideLock held (hs.map TickEvent.pauseCall ++ rest) =
      fetchOutsideLock held rest := by
  induction hs with
  | nil => rfl
  | cons h t ih => simp [fetchOutsideLock, ih]

theorem pausesInsideLock_append_pauses (hs : List String)
    (rest : List TickEvent) :
    pausesInsideLock true (hs.map TickEvent.pauseCall ++ rest) =
      pausesInsideLock true rest := by
  induction hs with
  | nil => rfl
  | cons h t ih => simp [pausesInsideLock, ih]

/-! Section: GetSeedingStatus lemmas -/

theorem statusFold_trackedTorrents (mult : Rat) (now : Int)
    (ts : List Torrent) (table : TrackingTable) (acc : SeedingStatus) :
    (table.foldl (statusStep mult now ts) acc).trackedTorrents =
      acc.trackedTorrents +
        table.countP (fun p => (torrentLookup ts p.1).isSome) := by
  induction table generalizing acc with
  | nil => simp
  | cons p rest ih =>
      rw [List.foldl_cons, ih, List.countP_cons]
      cases hl : torrentLookup ts p.1 with
      | none => simp [statusStep, hl]
      | some t => simp [statusStep, hl]; omega

theorem statusFold_details_missing (mult : Rat) (now : Int)
    (ts : List Torrent) (table : TrackingTable) (acc : SeedingStatus)
    (k : String) (hl : torrentLookup ts k = none) :
    assocLookup (table.foldl (statusStep mult now ts) acc).details k =
      assocLookup acc.details k := by
  induction table generalizing acc with
  | nil => rfl
  | cons p rest ih =>
      rw [List.foldl_cons, ih]
      cases hp : torrentLookup ts p.1 with
      | none => simp [statusStep, hp]
      | some t =>
          have hne : k ≠ p.1 := by
            intro h
            rw [h, hp] at hl
            cases hl
          simp [statusStep, hp, assocLookup_assocInsert, hne]

/-! Section: Claim C1 -/

/-- C1 (counterexample): with `TimeMultiplier = 3/2` and a download that took
3ns, completion detection at t=103 stores `seedingStopTime = 107` — the
truncation of `103 + 4.5` — so the stop time does NOT equal
`downloadCompleteTime + multiplier × downloadDuration` exactly, refuting the
claim as stated. -/
theorem claim_C1_counterexample :
    (checkSeedingLimits (3/2) (fun _ => false) 103
        (Except.ok [torCompletedA]) [("a", recDownloading)] =
      Except.ok
        { table := [("a",
            { hash := "a", name := "A", downloadStartTime := 100,
              downloadCompleteTime := 103, downloadDuration := 3,
              seedingStopTime := 107, autoStopped := false,
              createdAt := 100, updatedAt := 103 })],
          checkedCount := 1, stoppedCount := 0, pauseCalls := [],
          saveRequested := false }) ∧
    ¬ ((107 : Rat) = (103 : Rat) + (3/2) * 3) := by
  constructor
  · norm_num [checkSeedingLimits, processRecord, torrentLookup,
      truncTowardZero, Torrent.isCompleted, Torrent.isSeeding,
      torCompletedA, recDownloading]
  · norm_num

/-- C1 (amended): on the reconciliation tick that detects a record's
completion, the code stores `downloadCompleteTime = now`,
`downloadDuration = now − downloadStartTime`, and
`seedingStopTime = downloadCompleteTime + trunc(multiplier × downloadDuration)`
(the product truncated toward zero to whole nanoseconds, as Go's
`time.Duration(float64(...) * multiplier)` does); whenever the product
`multiplier × downloadDuration` is a whole number `m` of nanoseconds, the stop
time therefore equals `downloadCompleteTime + multiplier × downloadDuration`
exactly. -/
theorem claim_C1 (mult : Rat) (pauseErr : String → Bool) (now m : Int)
    (ts : List Torrent) (table : TrackingTable) (k : String)
    (d d2 : SeedingTrackingData) (t : Torrent) (r : CheckResult)
    (hd : assocLookup table k = some d)
    (hA : d.autoStopped = false)
    (hz : d.downloadCompleteTime = 0)
    (ht : torrentLookup ts k = some t)
    (hc : t.isCompleted = true)
    (hm : mult * ((now - d.downloadStartTime : Int) : Rat) = (m : Rat))
    (hres : checkSeedingLimits mult pauseErr now (Except.ok ts) table =
      Except.ok r)
    (hd2 : assocLookup r.table k = some d2) :
    d2.downloadCompleteTime = now ∧
    d2.downloadDuration = now - d.downloadStartTime ∧
    (d2.seedingStopTime : Rat) =
      (d2.downloadCompleteTime : Rat) + mult * (d2.downloadDuration : Rat) := by
  have htab : r.table =
      table.map
        (fun p => (p.1, (processRecord ⟨ts, now, mult, pauseErr⟩ p.1 p.2).1)) := by
    simp only [checkSeedingLimits] at hres
    injection hres with h
    rw [← h]
    simp [List.map_map, Function.comp]
  rw [htab,
    assocLookup_map
      (fun key dd => (processRecord ⟨ts, now, mult, pauseErr⟩ key dd).1),
    hd] at hd2
  injection hd2 with h2
  obtain ⟨e1, e2, e3⟩ :=
    processRecord_completion ⟨ts, now, mult, pauseErr⟩ k d hA t ht hz hc
  rw [← h2]
  refine ⟨e1, e2, ?_⟩
  rw [e1, e2, e3, hm, truncTowardZero_intCast]
  push_cast
  ring

/-- C1 (witness): the amended claim evaluated with multiplier 2 on a download
that started at t=100 and completed at t=105: the stored record has
`downloadCompleteTime = 105`, `downloadDuration = 5`,
`seedingStopTime = 115 = 105 + 2 × 5`. -/
theorem claim_C1_witness :
    ({ hash := "a", name := "A", downloadStartTime := 100,
       downloadCompleteTime := 105, downloadDuration := 5,
       seedingStopTime := 115, autoStopped := false, createdAt := 100,
       updatedAt := 105 } : SeedingTrackingData).downloadCompleteTime = 105 ∧
    ({ hash := "a", name := "A", downloadStartTime := 100,
       downloadCompleteTime := 105, downloadDuration := 5,
       seedingStopTime := 115, autoStopped := false, createdAt := 100,
       updatedAt := 105 } : SeedingTrackingData).downloadDuration =
      105 - recDownloading.downloadStartTime ∧
    ((({ hash := "a", name := "A", downloadStartTime := 100,
         downloadCompleteTime := 105, downloadDuration := 5,
         seedingStopTime := 115, autoStopped := false, createdAt := 100,
         updatedAt := 105 } : SeedingTrackingData).seedingStopTime : Int) :
        Rat) =
      ((({ hash := "a", name := "A", downloadStartTime := 100,
           downloadCompleteTime := 105, downloadDuration := 5,
           seedingStopTime := 115, autoStopped := false, createdAt := 100,
           updatedAt := 105 } : SeedingTrackingData).downloadCompleteTime :
          Int) : Rat) +
        2 * ((({ hash := "a", name := "A", downloadStartTime := 100,
                 downloadCompleteTime := 105, downloadDuration := 5,
                 seedingStopTime := 115, autoStopped := false,
                 createdAt := 100,
                 updatedAt := 105 } : SeedingTrackingData).downloadDuration :
            Int) : Rat) :=
  claim_C1 2 (fun _ => false) 105 10 [torCompletedA] [("a", recDownloading)]
    "a" recDownloading _ torCompletedA
    { table := [("a",
        { hash := "a", name := "A", downloadStartTime := 100,
          downloadCompleteTime := 105, downloadDuration := 5,
          seedingStopTime := 115, autoStopped := false, createdAt := 100,
          updatedAt := 105 })],
      checkedCount := 1, stoppedCount := 0, pauseCalls := [],
      saveRequested := false }
    (by simp [assocLookup]) rfl rfl
    (by simp [torrentLookup, torCompletedA]) rfl
    (by norm_num [recDownloading])
    (by norm_num [checkSeedingLimits, processRecord, torrentLookup,
      truncTowardZero, Torrent.isCompleted, Torrent.isSeeding,
      torCompletedA, recDownloading])
    (by simp [assocLookup])

/-! Section: Claim C2 -/

/-- C2 (counterexample): `LoadTrackingData` is one of the listed operations,
and loading a stored document that contains the same hash with
`auto_stopped = false` overwrites the in-memory record, flipping its
`autoStopped` field from `true` back to `false` while the hash remains in the
table — refuting the claim as stated. -/
theorem claim_C2_counterexample :
    recStopped.autoStopped = true ∧
    assocLookup [("c", recStopped)] "c" = some recStopped ∧
    assocLookup
      (applyOp
        (LifecycleOp.opLoadTrackingData
          (StoreRead.found [("c", { recStopped with autoStopped := false })]))
        [("c", recStopped)]) "c" =
      some { recStopped with autoStopped := false } ∧
    ({ recStopped with autoStopped := false } :
      SeedingTrackingData).autoStopped = false := by
  refine ⟨rfl, by simp [assocLookup], ?_, rfl⟩
  simp [applyOp, loadTrackingData, assocInsert, assocLookup, recStopped]

/-- C2 (amended): for every operation other than `LoadTrackingData`
(StartTracking, StopTracking, ForceStopSeeding, CheckSeedingLimits,
GetSeedingStatus, SaveTrackingData), once a record's `autoStopped` field is
`true`, the record found under the same hash after the operation still has
`autoStopped = true`; only `LoadTrackingData` can replace the record with a
stored one whose `autoStopped` is `false`. -/
theorem claim_C2 (op : LifecycleOp) (table : TrackingTable) (k : String)
    (d d2 : SeedingTrackingData) (hop : op.isLoad = false)
    (hd : assocLookup table k = some d) (hA : d.autoStopped = true)
    (hd2 : assocLookup (applyOp op table) k = some d2) :
    d2.autoStopped = true := by
  cases op with
  | opStartTracking now h n =>
      simp only [applyOp, startTracking] at hd2
      cases hl : assocLookup table h with
      | some x =>
          simp only [hl] at hd2
          rw [hd] at hd2
          injection hd2 with e
          rw [← e]; exact hA
      | none =>
          simp only [hl] at hd2
          rw [assocLookup_append_some _ _ _ _ hd] at hd2
          injection hd2 with e
          rw [← e]; exact hA
  | opStopTracking h =>
      simp only [applyOp, stopTracking] at hd2
      cases hl : assocLookup table h with
      | none =>
          simp only [hl] at hd2
          rw [hd] at hd2
          injection hd2 with e
          rw [← e]; exact hA
      | some x =>
          simp only [hl] at hd2
          rw [assocLookup_filter_ne] at hd2
          by_cases hk : k = h
          · rw [if_pos hk] at hd2; cases hd2
          · rw [if_neg hk, hd] at hd2
            injection hd2 with e
            rw [← e]; exact hA
  | opForceStopSeeding pr now hs =>
      simp only [applyOp, forceStopSeeding] at hd2
      by_cases he : hs = []
      · simp only [he, if_true] at hd2
        rw [hd] at hd2
        injection hd2 with e
        rw [← e]; exact hA
      · simp only [he, if_false] at hd2
        cases pr with
        | some e =>
            simp only [] at hd2
            rw [hd] at hd2
            injection hd2 with e2
            rw [← e2]; exact hA
        | none =>
            simp only [] at hd2
            rw [assocLookup_foldl_markStopped, hd] at hd2
            simp only [Option.map_some'] at hd2
            injection hd2 with e2
            rw [← e2]
            by_cases hk : k ∈ hs
            · simp [hk]
            · simp [hk]; exact hA
  | opCheckSeedingLimits m pe now fetch =>
      cases fetch with
      | error e =>
          simp only [applyOp, checkSeedingLimits] at hd2
          rw [hd] at hd2
          injection hd2 with e2
          rw [← e2]; exact hA
      | ok ts =>
          simp only [applyOp, checkSeedingLimits_ok] at hd2
          rw [assocLookup_map
            (fun key dd => (processRecord ⟨ts, now, m, pe⟩ key dd).1),
            hd] at hd2
          simp only [Option.map_some'] at hd2
          injection hd2 with e2
          rw [← e2, processRecord_of_autoStopped _ _ _ hA]
          exact hA
  | opGetSeedingStatus m now fetch =>
      simp only [applyOp] at hd2
      rw [hd] at hd2
      injection hd2 with e
      rw [← e]; exact hA
  | opSaveTrackingData =>
      simp only [applyOp] at hd2
      rw [hd] at hd2
      injection hd2 with e
      rw [← e]; exact hA
  | opLoadTrackingData s =>
      simp [LifecycleOp.isLoad] at hop

/-- C2 (witness): the amended claim evaluated on a force-stop of the batch
`["c"]` over a table holding the already-auto-stopped record `recStopped`:
the record after the operation still has `autoStopped = true`. -/
theorem claim_C2_witness :
    ({ recStopped with autoStopped := true, updatedAt := 30 } :
      SeedingTrackingData).autoStopped = true :=
  claim_C2 (LifecycleOp.opForceStopSeeding none 30 ["c"])
    [("c", recStopped)] "c" recStopped
    { recStopped with autoStopped := true, updatedAt := 30 }
    rfl (by simp [assocLookup]) rfl
    (by simp [applyOp, forceStopSeeding, markStopped, assocLookup])

/-! Section: Claim C3 -/

/-- C3 (counterexample): when the live-torrent fetch fails,
`GetSeedingStatus` returns `failed to get torrents: ...` instead of a report,
refuting the claim that the operation always succeeds even when the
live-torrent fetch fails. -/
theorem claim_C3_counterexample :
    getSeedingStatus 10 50 (Except.error "connection refused")
      [("a", recDownloading)] =
      Except.error "failed to get torrents: connection refused" ∧
    isOkResult (getSeedingStatus 10 50 (Except.error "connection refused")
      [("a", recDownloading)]) = false :=
  ⟨rfl, rfl⟩

/-- C3 (amended): `GetSeedingStatus` succeeds exactly when the live-torrent
fetch succeeds: for every record table it returns a report when the fetch
result is a torrent list, and it propagates an error when the fetch failed. -/
theorem claim_C3 (mult : Rat) (now : Int) (ts : List Torrent) (e : String)
    (table : TrackingTable) :
    isOkResult (getSeedingStatus mult now (Except.ok ts) table) = true ∧
    getSeedingStatus mult now (Except.error e) table =
      Except.error ("failed to get torrents: " ++ e) :=
  ⟨rfl, rfl⟩

/-! Section: Claim C4 -/

/-- C4 (counterexample): a tracked record whose torrent is missing from the
live snapshot is skipped entirely by `GetSeedingStatus` — the report for one
tracked record joined against an empty snapshot has `TrackedTorrents = 0` and
no detail entry, refuting the claim that such a record still yields an entry
and is counted. -/
theorem claim_C4_counterexample :
    assocLookup [("a", recDownloading)] "a" = some recDownloading ∧
    getSeedingStatus 10 50 (Except.ok []) [("a", recDownloading)] =
      Except.ok
        { trackedTorrents := 0, activeSeeding := 0, completedSeeding := 0,
          overdueSeeding := 0, totalDownloadTime := 0, totalSeedingTime := 0,
          details := [], lastChecked := 50 } :=
  ⟨by simp [assocLookup], rfl⟩

/-- C4 (amended): `GetSeedingStatus` counts only the tracked records whose
torrent is found in the live snapshot, and a record whose torrent is missing
from the snapshot contributes no detail entry at all (it is skipped, not
reported with unknown state). -/
theorem claim_C4 (mult : Rat) (now : Int) (ts : List Torrent)
    (table : TrackingTable) (s : SeedingStatus) (k : String)
    (hs : getSeedingStatus mult now (Except.ok ts) table = Except.ok s)
    (hk : torrentLookup ts k = none) :
    s.trackedTorrents =
      table.countP (fun p => (torrentLookup ts p.1).isSome) ∧
    assocLookup s.details k = none := by
  simp only [getSeedingStatus] at hs
  injection hs with h
  rw [← h]
  constructor
  · rw [statusFold_trackedTorrents]
    simp
  · rw [statusFold_details_missing _ _ _ _ _ _ hk]
    rfl

/-- C4 (witness): the amended claim evaluated on two tracked records `"a"`
and `"b"` joined against a snapshot holding only torrent `"b"`: the report
counts one torrent and has no entry for `"a"`. -/
theorem claim_C4_witness :
    ({ trackedTorrents := 1, activeSeeding := 1, completedSeeding := 0,
       overdueSeeding := 1, totalDownloadTime := 10, totalSeedingTime := 40,
       details := [("b",
         { hash := "b", name := "B", downloadDuration := 10,
           seedingDuration := 40, seedingLimit := 100, timeRemaining := 0,
           isOverdue := true, autoStopped := false,
           currentState := TorrentState.uploading,
           seedingStopTime := 20 })],
       lastChecked := 50 } : SeedingStatus).trackedTorrents =
      List.countP (fun p => (torrentLookup [torSeedingB] p.1).isSome)
        [("a", recDownloading), ("b", recOverdue)] ∧
    assocLookup
      ({ trackedTorrents := 1, activeSeeding := 1, completedSeeding := 0,
         overdueSeeding := 1, totalDownloadTime := 10, totalSeedingTime := 40,
         details := [("b",
           { hash := "b", name := "B", downloadDuration := 10,
             seedingDuration := 40, seedingLimit := 100, timeRemaining := 0,
             isOverdue := true, autoStopped := false,
             currentState := TorrentState.uploading,
             seedingStopTime := 20 })],
         lastChecked := 50 } : SeedingStatus).details "a" = none :=
  claim_C4 10 50 [torSeedingB] [("a", recDownloading), ("b", recOverdue)] _ "a"
    (by simp [getSeedingStatus, statusStep, torrentStatusOf,
      torrentLookup, truncTowardZero, assocInsert, Torrent.isSeeding,
      torSeedingB, recDownloading, recOverdue]; norm_num)
    (by simp [torrentLookup, torSeedingB])

/-! Section: Claim C5 -/

/-- C5 (counterexample): loading a stored document that is empty over a
non-empty in-memory table leaves the pre-existing record in place —
`json.Unmarshal` decodes into the existing map and keeps entries absent from
the document — so the table after `LoadTrackingData` is NOT equal to the
stored set, refuting the claim. -/
theorem claim_C5_counterexample :
    loadTrackingData (StoreRead.found []) [("a", recDownloading)] =
      (none, [("a", recDownloading)]) ∧
    [("a", recDownloading)] ≠ ([] : TrackingTable) :=
  ⟨rfl, by simp⟩

/-- C5 (amended): `LoadTrackingData` merges the stored set into the existing
in-memory table instead of replacing it: a missing backing file is not an
error and leaves the table unchanged (empty only if it already was), a read
failure is an error that leaves the table unchanged, and on a successful read
every key of the stored document maps to its (last) stored record while every
other key keeps its pre-existing record. -/
theorem claim_C5 (recs table : TrackingTable) (e : String) (k : String) :
    loadTrackingData StoreRead.missing table = (none, table) ∧
    (loadTrackingData (StoreRead.readError e) table).2 = table ∧
    (loadTrackingData (StoreRead.found recs) table).1 = none ∧
    assocLookup (loadTrackingData (StoreRead.found recs) table).2 k =
      (assocLookupLast recs k).or (assocLookup table k) := by
  refine ⟨rfl, rfl, rfl, ?_⟩
  simp only [loadTrackingData]
  exact assocLookup_foldl_assocInsert recs table k

/-! Section: Claim C6 -/

/-- C6 (counterexample): a reconciliation tick whose only change is
completion detection (multiplier 2, download of 3ns completed at t=103:
the record gains `downloadCompleteTime`, `downloadDuration` and
`seedingStopTime`) changes the table but requests NO save — the end-of-tick
save happens only when `stoppedCount > 0` — refuting the claim. -/
theorem claim_C6_counterexample :
    (checkSeedingLimits 2 (fun _ => false) 103
        (Except.ok [torCompletedA]) [("a", recDownloading)] =
      Except.ok
        { table := [("a",
            { hash := "a", name := "A", downloadStartTime := 100,
              downloadCompleteTime := 103, downloadDuration := 3,
              seedingStopTime := 109, autoStopped := false,
              createdAt := 100, updatedAt := 103 })],
          checkedCount := 1, stoppedCount := 0, pauseCalls := [],
          saveRequested := false }) ∧
    [("a",
      ({ hash := "a", name := "A", downloadStartTime := 100,
         downloadCompleteTime := 103, downloadDuration := 3,
         seedingStopTime := 109, autoStopped := false,
         createdAt := 100, updatedAt := 103 } : SeedingTrackingData))] ≠
      [("a", recDownloading)] := by
  constructor
  · simp [checkSeedingLimits, processRecord, torrentLookup, truncTowardZero,
      Torrent.isCompleted, Torrent.isSeeding, torCompletedA, recDownloading]
    norm_num
  · simp [recDownloading]

/-- C6 (amended): the end-of-tick save of `CheckSeedingLimits` is requested
exactly when at least one record was auto-stopped during the tick (its
`autoStopped` flag went false → true); ticks whose only state change is
completion detection mutate the table without requesting a save. -/
theorem claim_C6 (mult : Rat) (pauseErr : String → Bool) (now : Int)
    (ts : List Torrent) (table : TrackingTable) (r : CheckResult)
    (hres : checkSeedingLimits mult pauseErr now (Except.ok ts) table =
      Except.ok r) :
    r.saveRequested = true ↔
      ∃ p ∈ table, p.2.autoStopped = false ∧
        (processRecord ⟨ts, now, mult, pauseErr⟩ p.1 p.2).1.autoStopped =
          true := by
  rw [checkSeedingLimits_ok] at hres
  injection hres with h
  rw [← h]
  simp only [bne_iff_ne]
  rw [← Nat.pos_iff_ne_zero, List.countP_pos_iff]
  constructor
  · rintro ⟨p, hp, hf⟩
    exact ⟨p, hp, (processRecord_stopped_iff _ _ _).mp hf⟩
  · rintro ⟨p, hp, hf⟩
    exact ⟨p, hp, (processRecord_stopped_iff _ _ _).mpr hf⟩

/-- C6 (witness): the amended claim evaluated on a tick that auto-stops the
overdue record `"b"`: the save is requested and the record `("b", recOverdue)`
is the one whose `autoStopped` flag went false → true. -/
theorem claim_C6_witness :
    ({ table := [("b",
        { hash := "b", name := "B", downloadStartTime := 0,
          downloadCompleteTime := 10, downloadDuration := 10,
          seedingStopTime := 20, autoStopped := true, createdAt := 0,
          updatedAt := 30 })],
       checkedCount := 1, stoppedCount := 1, pauseCalls := ["b"],
       saveRequested := true } : CheckResult).saveRequested = true ↔
      ∃ p ∈ [("b", recOverdue)], p.2.autoStopped = false ∧
        (processRecord ⟨[torSeedingB], 30, 1, fun _ => false⟩ p.1
            p.2).1.autoStopped = true :=
  claim_C6 1 (fun _ => false) 30 [torSeedingB] [("b", recOverdue)] _
    (by simp [checkSeedingLimits, processRecord, torrentLookup,
      truncTowardZero, Torrent.isCompleted, Torrent.isSeeding,
      torSeedingB, recOverdue])

/-! Section: Claim C7 -/

/-- C7: `ForceStopSeeding` on a non-empty batch: if the batched pause call
fails, the error is returned and the table is exactly as before; if the pause
call succeeds, no error is returned and every tracked record of the batch has
`autoStopped` set to `true` (with `updatedAt = now`), regardless of its
seeding budget. -/
theorem claim_C7 (table : TrackingTable) (hashes : List String) (now : Int)
    (e : String) (k : String) (d : SeedingTrackingData)
    (hne : hashes ≠ []) (hk : k ∈ hashes)
    (hd : assocLookup table k = some d) :
    forceStopSeeding (some e) now table hashes =
      (some ("failed to pause torrents: " ++ e), table) ∧
    (forceStopSeeding none now table hashes).1 = none ∧
    assocLookup (forceStopSeeding none now table hashes).2 k =
      some { d with autoStopped := true, updatedAt := now } := by
  refine ⟨by simp [forceStopSeeding, hne], by simp [forceStopSeeding, hne], ?_⟩
  simp only [forceStopSeeding, hne, if_false]
  rw [assocLookup_foldl_markStopped, hd]
  simp [hk]

/-- C7 (witness): the claim evaluated on the batch `["b"]` over a table
holding the record `recOverdue`: a failed pause returns the error with the
table untouched, and a successful pause marks the record. -/
theorem claim_C7_witness :
    forceStopSeeding (some "boom") 30 [("b", recOverdue)] ["b"] =
      (some "failed to pause torrents: boom", [("b", recOverdue)]) ∧
    (forceStopSeeding none 30 [("b", recOverdue)] ["b"]).1 = none ∧
    assocLookup (forceStopSeeding none 30 [("b", recOverdue)] ["b"]).2 "b" =
      some { recOverdue with autoStopped := true, updatedAt := 30 } :=
  claim_C7 [("b", recOverdue)] ["b"] 30 "boom" "b" recOverdue
    (by simp) (by simp) (by simp [assocLookup])

/-! Section: Claim C8 -/

/-- C8 (counterexample): `Config.Validate` accepts a configuration whose
reconciliation check interval is zero (non-positive) — the source contains no
check of `Seeding.CheckInterval` at all — refuting the claim that
construction-time validation rejects a non-positive tick interval. -/
theorem claim_C8_counterexample :
    cfgZeroInterval.seeding.checkInterval ≤ 0 ∧
    configValidate cfgZeroInterval = none := by
  constructor
  · norm_num [cfgZeroInterval]
  · simp [configValidate, cfgZeroInterval, validLogLevel]

/-- C8 (amended): construction-time validation rejects a non-positive seeding
time multiplier (some error is always returned when `TimeMultiplier ≤ 0`),
but it never inspects the check interval: `Validate`'s result is unchanged
under any substitution of `Seeding.CheckInterval`, so a non-positive tick
interval is not rejected. -/
theorem claim_C8 (c : Config) (i : Int)
    (hm : c.seeding.timeMultiplier ≤ 0) :
    (configValidate c).isSome = true ∧
    configValidate
        { c with seeding := { c.seeding with checkInterval := i } } =
      configValidate c := by
  constructor
  · cases hval : configValidate c with
    | some v => rfl
    | none =>
        exfalso
        unfold configValidate at hval
        repeat' split at hval
        all_goals simp_all
  · rfl

/-- C8 (witness): the amended claim evaluated on the sample configuration
with its multiplier replaced by 0 and the check interval replaced by -5. -/
theorem claim_C8_witness :
    (configValidate
        { cfgZeroInterval with
            seeding :=
              { cfgZeroInterval.seeding with timeMultiplier := 0 } }).isSome =
      true ∧
    configValidate
        { { cfgZeroInterval with
              seeding :=
                { cfgZeroInterval.seeding with timeMultiplier := 0 } } with
            seeding :=
              { ({ cfgZeroInterval with
                     seeding :=
                       { cfgZeroInterval.seeding with
                           timeMultiplier := 0 } } : Config).seeding with
                  checkInterval := -5 } } =
      configValidate
        { cfgZeroInterval with
            seeding :=
              { cfgZeroInterval.seeding with timeMultiplier := 0 } } :=
  claim_C8
    { cfgZeroInterval with
        seeding := { cfgZeroInterval.seeding with timeMultiplier := 0 } }
    (-5) (by norm_num [cfgZeroInterval])

/-! Section: Claim C9 -/

/-- C9 (counterexample): a tick that auto-stops the overdue record `"b"`
issues its `PauseTorrents` network call between the acquisition and the
release of the exclusive record-table lock, refuting the claim that the
engine never holds the lock across a network call. -/
theorem claim_C9_counterexample :
    checkSeedingLimitsTrace 1 (fun _ => false) 30
        (Except.ok [torSeedingB]) [("b", recOverdue)] =
      [TickEvent.fetchTorrents, TickEvent.lockAcquire,
       TickEvent.pauseCall "b", TickEvent.saveCall,
       TickEvent.lockRelease] ∧
    pausesOutsideLock false
      (checkSeedingLimitsTrace 1 (fun _ => false) 30
        (Except.ok [torSeedingB]) [("b", recOverdue)]) = false := by
  have h : checkSeedingLimitsTrace 1 (fun _ => false) 30
      (Except.ok [torSeedingB]) [("b", recOverdue)] =
      [TickEvent.fetchTorrents, TickEvent.lockAcquire,
       TickEvent.pauseCall "b", TickEvent.saveCall,
       TickEvent.lockRelease] := by
    simp [checkSeedingLimitsTrace, checkSeedingLimits, processRecord,
      torrentLookup, truncTowardZero, Torrent.isCompleted, Torrent.isSeeding,
      torSeedingB, recOverdue]
  exact ⟨h, by rw [h]; rfl⟩

/-- C9 (amended): within every `CheckSeedingLimits` tick the provider fetch
is issued before the exclusive lock is acquired (never under the lock), but
every `PauseTorrents` controller call — and the end-of-tick save — is issued
while the exclusive lock is held. -/
theorem claim_C9 (mult : Rat) (pauseErr : String → Bool) (now : Int)
    (fetch : Except String (List Torrent)) (table : TrackingTable) :
    fetchOutsideLock false
      (checkSeedingLimitsTrace mult pauseErr now fetch table) = true ∧
    pausesInsideLock false
      (checkSeedingLimitsTrace mult pauseErr now fetch table) = true := by
  cases fetch with
  | error e => exact ⟨rfl, rfl⟩
  | ok ts =>
      rw [checkSeedingLimitsTrace, checkSeedingLimits_ok]
      constructor
      · simp only [List.cons_append, List.nil_append, List.append_eq,
          fetchOutsideLock]
        rw [List.append_assoc, fetchOutsideLock_append_pauses]
        split <;> rfl
      · simp only [List.cons_append, List.nil_append, List.append_eq,
          pausesInsideLock]
        rw [List.append_assoc, pausesInsideLock_append_pauses]
        split <;> rfl

/-! Section: Claim C10 -/

/-- C10: a record whose `autoStopped` field is `true` at the start of a
reconciliation tick is skipped before any mutation, so every one of its
fields — in particular a zero `downloadCompleteTime`, `downloadDuration` and
`seedingStopTime` of a record force-stopped before completing — is unchanged
in the table produced by `CheckSeedingLimits`. -/
theorem claim_C10 (mult : Rat) (pauseErr : String → Bool) (now : Int)
    (ts : List Torrent) (table : TrackingTable) (k : String)
    (d : SeedingTrackingData) (r : CheckResult)
    (hd : assocLookup table k = some d) (hA : d.autoStopped = true)
    (hres : checkSeedingLimits mult pauseErr now (Except.ok ts) table =
      Except.ok r) :
    assocLookup r.table k = some d := by
  rw [checkSeedingLimits_ok] at hres
  injection hres with h
  rw [← h]
  show assocLookup (table.map (fun p =>
    (p.1, (processRecord ⟨ts, now, mult, pauseErr⟩ p.1 p.2).1))) k = some d
  rw [assocLookup_map
    (fun key dd => (processRecord ⟨ts, now, mult, pauseErr⟩ key dd).1), hd]
  rw [Option.map_some', processRecord_of_autoStopped _ _ _ hA]

/-- C10 (witness): the claim evaluated on a tick over the already-stopped
record `recStopped` (a live snapshot containing only torrent `"b"`): the
record is returned untouched. -/
theorem claim_C10_witness :
    assocLookup
      ({ table := [("c", recStopped)], checkedCount := 1, stoppedCount := 0,
         pauseCalls := [], saveRequested := false } : CheckResult).table "c" =
      some recStopped :=
  claim_C10 1 (fun _ => false) 30 [torSeedingB] [("c", recStopped)] "c"
    recStopped _ (by simp [assocLookup]) rfl
    (by simp [checkSeedingLimits, processRecord, torrentLookup,
      Torrent.isCompleted, Torrent.isSeeding, torSeedingB, recStopped])

end Akira
